import Mathlib

/-!
Verification development for `site_search/crawler-mamaearth.py`.

The script is a single-file web scraper: it resolves a sitemap, filters
product-page URLs, fetches each page, extracts three text fields via fixed
CSS-class selectors, and appends the results as JSON lines.

The embedding below translates the script's pure logic directly, and models
its effectful collaborators (`requests.get`, `BeautifulSoup` documents, the
`usp` sitemap library, the output file) as explicit inputs:

* an HTTP fetch is a `FetchResult` value: either a raised exception
  (`requests.get` raises on network errors) or a response with a status code
  and an already-parsed document body;
* a parsed HTML document is a `Node` tree (element nodes carry a tag, a list
  of classes, and children; text nodes carry a string), with BeautifulSoup's
  `find`, `.parent` and `.text` operations implemented over it;
* the `usp` sitemap objects are a `Sitemap` tree with `all_pages` chaining;
* the output file is the `List Char` contents written to it.

Machine integers do not occur; HTTP status codes are `Nat`.
-/

/-! ## Python string helpers

`splitChar` is Python's `str.split(sep)` for a one-character separator:
`"".split("/") == [""]` and `"/".split("/") == ["", ""]`.
`pyStrip` is Python's `str.strip(c)`: drop `c` from both ends.
`listHasSub` is Python's substring test `needle in hay`. -/

def splitChar (c : Char) : List Char → List (List Char)
  | [] => [[]]
  | x :: xs =>
    let r := splitChar c xs
    if x == c then [] :: r
    else
      match r with
      | [] => [[x]]
      | y :: ys => (x :: y) :: ys

def pyStrip (c : Char) (s : List Char) : List Char :=
  ((s.dropWhile (· == c)).reverse.dropWhile (· == c)).reverse

def listHasSub (needle hay : List Char) : Bool :=
  match hay with
  | [] => needle.isEmpty
  | _ :: t => needle.isPrefixOf hay || listHasSub needle t

/-! ## URL path extraction

Model of `urllib.parse.urlparse(url).path`: strip the fragment (first `#`),
strip a leading `scheme:` when the part before the first `:` is a nonempty
run of scheme characters starting with a letter, strip a `//netloc` (up to
the next `/`, `?` or `#`), strip the query (first `?`).  Parameter
segments (`;`) do not occur in this crawler's inputs and are not split. -/

def isSchemeChar (c : Char) : Bool :=
  c.isAlpha || c.isDigit || c == '+' || c == '-' || c == '.'

def dropScheme (s : List Char) : List Char :=
  let pre := s.takeWhile (fun c => c != ':')
  match s.dropWhile (fun c => c != ':') with
  | ':' :: rest =>
    match pre with
    | [] => s
    | c :: _ => if c.isAlpha && pre.all isSchemeChar then rest else s
  | _ => s

def dropNetloc (s : List Char) : List Char :=
  match s with
  | '/' :: '/' :: rest => rest.dropWhile (fun c => c != '/' && c != '?' && c != '#')
  | _ => s

def urlparse_path (url : String) : List Char :=
  let s := url.data.takeWhile (fun c => c != '#')
  let s := dropScheme s
  let s := dropNetloc s
  s.takeWhile (fun c => c != '?')

/-! ## URL Path Decomposer (`get_path_hierarchy`, lines 29-57)

`prefix` accumulates `directory` segments; after each segment the running
prefix is appended to the result and a `/` is added. -/

def hierarchy_loop (pre : List Char) : List (List Char) → List String
  | [] => []
  | d :: ds =>
    let p := pre ++ d
    String.mk p :: hierarchy_loop (p ++ ['/']) ds

def get_path_hierarchy (url : String) : List String :=
  let path := urlparse_path url
  if path.isEmpty then []
  else hierarchy_loop [] (splitChar '/' (pyStrip '/' path))

/-! ## Parsed HTML documents

`Node` models a BeautifulSoup document tree.  `textOf` is `.text`
(concatenation of all descendant strings).  `findInNode` is
`element.find(tag, attrs)`: first match among the node's descendants in
document order.  `findParentInNode` is `soup.find(...).parent`: the parent
of that first match.  `matchesTagClass` mirrors `find(tag,
attrs={'class': cls})`: the tag is equal and `cls` is among the element's
classes; `matchesTag` mirrors `find(tag)` with no attribute filter. -/

inductive Node where
  | elem (tag : String) (classes : List String) (children : List Node)
  | text (s : String)

mutual

def textOf : Node → String
  | .text s => s
  | .elem _ _ cs => textOfList cs

def textOfList : List Node → String
  | [] => ""
  | n :: ns => textOf n ++ textOfList ns

end

mutual

def findInList (p : Node → Bool) : List Node → Option Node
  | [] => none
  | n :: ns =>
    if p n then some n else
    match findInNode p n with
    | some r => some r
    | none => findInList p ns

def findInNode (p : Node → Bool) : Node → Option Node
  | .text _ => none
  | .elem _ _ cs => findInList p cs

end

mutual

def findParentInList (p : Node → Bool) (parent : Node) : List Node → Option Node
  | [] => none
  | n :: ns =>
    if p n then some parent else
    match findParentInNode p n with
    | some r => some r
    | none => findParentInList p parent ns

def findParentInNode (p : Node → Bool) : Node → Option Node
  | .text _ => none
  | .elem t c cs => findParentInList p (.elem t c cs) cs

end

def matchesTagClass (tag cls : String) : Node → Bool
  | .elem t cl _ => t == tag && cl.contains cls
  | .text _ => false

def matchesTag (tag : String) : Node → Bool
  | .elem t _ _ => t == tag
  | .text _ => false

/-! ## Extraction Worker (`Crawler.crawl_page`, lines 102-128) -/

structure ProductData where
  title : String
  description : String
  subtitle : String
  url : String
  sections : Option (List String) := none
deriving DecidableEq

/-- The outcome of `requests.get(url)`: network, DNS and timeout failures
raise an exception out of the call; otherwise a response carries a status
code and a body, which `BeautifulSoup` parses into a document (the html
parser is lenient and never fails, and the constructor never returns
`None`, so the `null soup` branch at line 113 is unreachable: the body is
modelled directly as the parsed tree). -/
inductive FetchResult where
  | exn (msg : String)
  | resp (status : Nat) (body : Node)

/-- `requests.Response.ok`: `raise_for_status` raises exactly for
`400 <= status < 600`, and `ok` is its non-raising. -/
def resp_ok (status : Nat) : Bool :=
  if 400 ≤ status ∧ status < 600 then false else true

/-- `Crawler.crawl_page` (lines 102-128).  `sections` is computed before the
fetch (line 104).  A non-`ok` response returns `None` (lines 107-108).  The
`try` block finds the three elements; in Python any failed lookup,
evaluated left to right, raises `AttributeError` on the following `.parent`
/ `.find` / `.text` access, the bare `except` prints and falls through to
the trailing bare `return`, so record construction succeeds exactly when
all three selector lookups and the nested `find('p')` succeed.  An
exception raised by `requests.get` itself is outside the `try` and
propagates out of the call (`Except.error`). -/
def crawl_page (fetched : FetchResult) (url : String)
    (content_selector : String := "product") : Except String (Option ProductData) :=
  let sections := get_path_hierarchy url
  match fetched with
  | .exn msg => .error msg
  | .resp status body =>
    if resp_ok status = false then .ok none
    else
      match findInNode (matchesTagClass "h1" "product-name") body,
            findParentInNode (matchesTagClass "h2" "product-description-header") body,
            findInNode (matchesTagClass "div" "product-subtitle") body with
      | some product_name, some desc, some subtitle =>
        match findInNode (matchesTag "p") desc with
        | some pElem =>
          .ok (some { title := textOf product_name, description := textOf pElem,
                      subtitle := textOf subtitle, url := url, sections := some sections })
        | none => .ok none
      | _, _, _ => .ok none

/-! ## Sitemap resolution (`Crawler.download_sitemap`, lines 82-100)

The `usp` collaborator's result for the explicit sitemap URL is a
`Sitemap` tree: `InvalidSitemap` (unfetchable or unparseable, reported as
a value, not an exception), a pages sitemap, or an index sitemap whose
`all_pages` chains its sub-sitemaps' pages (an `InvalidSitemap` yields no
pages). -/

inductive Sitemap where
  | invalid (url : String)
  | pagesSitemap (url : String) (pages : List String)
  | indexSitemap (url : String) (subs : List Sitemap)

mutual

def allPages : Sitemap → List String
  | .invalid _ => []
  | .pagesSitemap _ ps => ps
  | .indexSitemap _ subs => allPagesList subs

def allPagesList : List Sitemap → List String
  | [] => []
  | s :: ss => allPages s ++ allPagesList ss

end

def isInvalidSitemap : Sitemap → Bool
  | .invalid _ => true
  | _ => false

/-- `Crawler.download_sitemap` with an explicit `sitemap_url` (lines
86-100): the fetched sitemap is kept only when it is not an
`InvalidSitemap`, the survivors are wrapped in an `IndexWebsiteSitemap`
rooted at the site, and that index's pages are returned. -/
def download_sitemap (site : String) (fetched : Sitemap) : List String :=
  let sitemaps := if isInvalidSitemap fetched then ([] : List Sitemap) else [fetched]
  allPages (.indexSitemap site sitemaps)

/-! ## Orchestrator (`download_and_save`, lines 130-152) -/

def page_url : String := "https://mamaearth.in/"

/-- Model of `urllib.parse.urljoin(base, url)` for the URL shapes this
crawler passes: a reference carrying an explicit scheme is returned
unchanged; a scheme-less relative reference is resolved against the site
root base by concatenation. -/
def urljoin (base url : String) : String :=
  if listHasSub "://".data url.data then url else base ++ url

/-- The filter at line 145: `"/product/" in x and "reviews" not in x`,
applied to the full joined URL string. -/
def url_filter_pred (x : String) : Bool :=
  listHasSub "/product/".data x.data && !(listHasSub "reviews".data x.data)

/-- Lines 140-145: join every sitemap page URL against the site root, then
keep the ones passing the filter; this is the list handed to the pool. -/
def filtered_page_urls (pages : List String) : List String :=
  (pages.map fun p => urljoin page_url p).filter url_filter_pred

/-- Lines 148-152: `pool.imap(crawler.crawl_page, page_urls)` yields one
outcome per URL in order (`content_selector` keeps its default); a `None`
outcome is dropped, a record is kept, and an exception raised inside a
worker re-raises at the consuming loop and aborts the run. -/
def crawl_pages (env : String → FetchResult) :
    List String → Except String (List ProductData)
  | [] => .ok []
  | u :: us =>
    match crawl_page (env u) u "product" with
    | .error e => .error e
    | .ok none => crawl_pages env us
    | .ok (some r) => (crawl_pages env us).map (r :: ·)

/-- Modelled from the spec: the script keeps no explicit tally, so the
`skipped` count of the spec's `CrawlReport` is read off as the number of
dispatched URLs whose `crawl_page` outcome produced no record. -/
def skipped_count (env : String → FetchResult) : List String → Nat
  | [] => 0
  | u :: us =>
    (match crawl_page (env u) u "product" with
     | .ok none => 1
     | _ => 0) + skipped_count env us

/-! ## Sink (`json.dumps` + newline, lines 139 and 148-152)

`dumpsChars` models `json.dumps(product.__dict__)` with its defaults:
item separator `", "`, key separator `": "`, `ensure_ascii=True` (every
character outside `0x20..0x7e` is `\uXXXX`-escaped, lowercase hex,
surrogate pairs above the BMP), and insertion-ordered keys — for a
dataclass `__dict__`, declaration order. -/

def hexDigit (n : Nat) : Char :=
  if n < 10 then Char.ofNat (48 + n) else Char.ofNat (87 + n)

def u4 (n : Nat) : List Char :=
  ['\\', 'u', hexDigit (n / 4096 % 16), hexDigit (n / 256 % 16),
   hexDigit (n / 16 % 16), hexDigit (n % 16)]

def escChar (c : Char) : List Char :=
  if c = '"' then ['\\', '"']
  else if c = '\\' then ['\\', '\\']
  else if c = '\n' then ['\\', 'n']
  else if c = '\r' then ['\\', 'r']
  else if c = '\t' then ['\\', 't']
  else if c.toNat = 8 then ['\\', 'b']
  else if c.toNat = 12 then ['\\', 'f']
  else if c.toNat < 32 then u4 c.toNat
  else if c.toNat < 127 then [c]
  else if c.toNat < 65536 then u4 c.toNat
  else u4 (55296 + (c.toNat - 65536) / 1024) ++ u4 (56320 + (c.toNat - 65536) % 1024)

def escList (s : String) : List Char :=
  '"' :: s.data.foldr (fun c acc => escChar c ++ acc) ['"']

inductive JVal where
  | str (s : String)
  | arr (xs : List String)
  | jnull

def joinCommaL : List (List Char) → List Char
  | [] => []
  | [x] => x
  | x :: y :: ys => x ++ (", ".data ++ joinCommaL (y :: ys))

def renderJValL : JVal → List Char
  | .str s => escList s
  | .arr xs => '[' :: (joinCommaL (xs.map escList) ++ [']'])
  | .jnull => "null".data

def dumpsChars (items : List (String × JVal)) : List Char :=
  '\x7b' :: (joinCommaL (items.map fun kv => escList kv.1 ++ (':' :: ' ' :: renderJValL kv.2)) ++ ['\x7d'])

/-- `product.__dict__` of the `ProductData` dataclass: insertion order is
the declaration order of the fields (lines 20-26). -/
def recordDict (r : ProductData) : List (String × JVal) :=
  [("title", .str r.title), ("description", .str r.description),
   ("subtitle", .str r.subtitle), ("url", .str r.url),
   ("sections", match r.sections with | none => .jnull | some l => .arr l)]

/-- One sink line: `out.write(json.dumps(product.__dict__))` (line 151). -/
def write_record (r : ProductData) : List Char :=
  dumpsChars (recordDict r)

/-- The sink contents produced by the consuming loop: each record's JSON
followed by `out.write('\n')` (lines 151-152). -/
def write_records : List ProductData → List Char
  | [] => []
  | r :: rs => write_record r ++ ('\n' :: write_records rs)

/-- File contents after one `download_and_save` run over a sink file whose
previous contents were `prev`: the file is opened with mode `'w'`
(line 139), which truncates, so the previous contents are discarded. -/
def file_after_run (prev : List Char) (rs : List ProductData) : List Char :=
  write_records rs

/-- The whole pipeline of `download_and_save` (lines 130-152) given the
sitemap collaborator's result and the per-URL fetch results: resolve pages
from the explicit sitemap URL, join and filter, crawl, and produce the
sink contents (or the exception that aborted the run). -/
def download_and_save (fetched : Sitemap) (env : String → FetchResult) :
    Except String (List Char) :=
  let pages := download_sitemap page_url fetched
  (crawl_pages env (filtered_page_urls pages)).map write_records

/-- The spec's persisted-output template, written from its words: a record
line is byte-for-byte
`\x7b"title": ..., "description": ..., "subtitle": ..., "url": ...,
"sections": [...]\x7d` with the string fields JSON-escaped.  Stated for
comparison with `write_record`, which is translated from the code. -/
def record_line_spec (r : ProductData) (l : List String) : List Char :=
  "\x7b\"title\": ".data ++ (escList r.title ++
  (", \"description\": ".data ++ (escList r.description ++
  (", \"subtitle\": ".data ++ (escList r.subtitle ++
  (", \"url\": ".data ++ (escList r.url ++
  (", \"sections\": [".data ++ (joinCommaL (l.map escList) ++ "]\x7d".data)))))))))

deriving instance DecidableEq for Except

/-! ## Sample documents and environments used by witnesses and
counterexamples -/

/-- A product page on which every selector lookup succeeds with non-empty
text. -/
def goodBody : Node :=
  .elem "body" [] [
    .elem "h1" ["product-name"] [.text "T"],
    .elem "section" [] [
      .elem "h2" ["product-description-header"] [.text "hdr"],
      .elem "p" [] [.text "D"]],
    .elem "div" ["product-subtitle"] [.text "S"]
  ]

/-- Like `goodBody`, but the matched `h1.product-name` element has no text
at all. -/
def emptyTitleBody : Node :=
  .elem "body" [] [
    .elem "h1" ["product-name"] [],
    .elem "section" [] [
      .elem "h2" ["product-description-header"] [.text "hdr"],
      .elem "p" [] [.text "D"]],
    .elem "div" ["product-subtitle"] [.text "S"]
  ]

/-- The record `crawl_page` extracts from `goodBody` at
`https://x/product/a`. -/
def goodRecord : ProductData :=
  { title := "T", description := "D", subtitle := "S",
    url := "https://x/product/a",
    sections := some ["product", "product/a"] }

/-- C4, counterexample.  The claim includes `decompose("/") = []`; on the
code, `urlparse("/").path` is `"/"`, which is non-empty, `"/".strip("/")`
is `""`, and Python's `"".split("/")` is `[""]`, so the loop runs once over
the empty segment and `get_path_hierarchy "/"` is `[""]`, not `[]`. -/
theorem c4_slash_counterexample :
    get_path_hierarchy "/" = [""] ∧ get_path_hierarchy "/" ≠ [] := by
  constructor
  · decide
  · decide

/-- C4, amended.  The URL Path Decomposer satisfies the spec's test vectors
`decompose("/foo/bar") = ["foo","foo/bar"]`, `decompose("foo") = ["foo"]`,
`decompose("/foo/") = ["foo"]`, `decompose("foo/bar/") = ["foo","foo/bar"]`,
and an empty path yields the empty sequence; but `decompose("/")` is
`[""]`, a single empty-string section, not the empty sequence. -/
theorem c4_path_hierarchy_vectors :
    get_path_hierarchy "/foo/bar" = ["foo", "foo/bar"]
    ∧ get_path_hierarchy "foo" = ["foo"]
    ∧ get_path_hierarchy "/foo/" = ["foo"]
    ∧ get_path_hierarchy "foo/bar/" = ["foo", "foo/bar"]
    ∧ get_path_hierarchy "" = []
    ∧ get_path_hierarchy "/" = [""] := by
  refine ⟨?_, ?_, ?_, ?_, ?_, ?_⟩ <;> decide

/-- C6.  For the resolved URL list
`["https://x/product/a", "https://x/other", "https://x/product/b/reviews"]`
the join-and-filter stage of `download_and_save` keeps exactly one URL,
`https://x/product/a`, and that list is what is handed to the worker
pool. -/
theorem c6_filter_scenario :
    filtered_page_urls
      ["https://x/product/a", "https://x/other", "https://x/product/b/reviews"]
      = ["https://x/product/a"] := by
  decide

/-- C10.  The `content_selector` parameter of `crawl_page` is never read:
for any fetch result and URL, any two values of the parameter produce the
same outcome, so the field selectors are fixed. -/
theorem c10_content_selector_irrelevant
    (fetched : FetchResult) (url s₁ s₂ : String) :
    crawl_page fetched url s₁ = crawl_page fetched url s₂ := rfl

/-- C9.  `download_sitemap` with an explicit sitemap URL never fails: when
the fetched sitemap is an `InvalidSitemap` it is dropped and the index-only
view yields the empty page set; otherwise the valid sitemap's own pages are
returned unchanged. -/
theorem c9_invalid_sitemap_degrades :
    (∀ site errUrl, download_sitemap site (.invalid errUrl) = [])
    ∧ (∀ site fetched, isInvalidSitemap fetched = false →
        download_sitemap site fetched = allPages fetched) := by
  constructor
  · intro site errUrl
    simp [download_sitemap, isInvalidSitemap, allPages, allPagesList]
  · intro site fetched h
    simp [download_sitemap, h, allPages, allPagesList]

/-- C9, witness: an invalid explicit sitemap yields the empty page set, and
a valid one yields its own pages. -/
theorem c9_witness :
    download_sitemap "https://mamaearth.in/"
        (.invalid "https://mamaearth.in/sitemap.xml") = []
    ∧ download_sitemap "https://mamaearth.in/"
        (.pagesSitemap "https://mamaearth.in/sitemap.xml" ["https://x/product/a"])
        = ["https://x/product/a"] :=
  ⟨(c9_invalid_sitemap_degrades.1 "https://mamaearth.in/"
      "https://mamaearth.in/sitemap.xml"),
   (c9_invalid_sitemap_degrades.2 "https://mamaearth.in/"
      (.pagesSitemap "https://mamaearth.in/sitemap.xml" ["https://x/product/a"])
      (by decide))⟩

/-! ## Helper lemmas on the worker and the orchestrator loop -/

theorem crawl_page_status_not_ok (status : Nat) (body : Node) (url cs : String)
    (h4 : 400 ≤ status) (h6 : status < 600) :
    crawl_page (.resp status body) url cs = .ok none := by
  have hok : resp_ok status = false := by simp [resp_ok, h4, h6]
  unfold crawl_page
  simp [hok]

theorem crawl_page_resp_no_exn (status : Nat) (body : Node) (url cs : String) :
    ∃ o, crawl_page (.resp status body) url cs = .ok o := by
  by_cases hok : resp_ok status = false
  · exact ⟨none, by unfold crawl_page; simp [hok]⟩
  · rcases h1 : findInNode (matchesTagClass "h1" "product-name") body with _ | pn
    · exact ⟨none, by unfold crawl_page; simp [hok, h1]⟩
    · rcases h2 : findParentInNode
          (matchesTagClass "h2" "product-description-header") body with _ | desc
      · exact ⟨none, by unfold crawl_page; simp [hok, h1, h2]⟩
      · rcases h3 : findInNode (matchesTagClass "div" "product-subtitle") body
            with _ | st
        · exact ⟨none, by unfold crawl_page; simp [hok, h1, h2, h3]⟩
        · rcases h4 : findInNode (matchesTag "p") desc with _ | pElem
          · exact ⟨none, by unfold crawl_page; simp [hok, h1, h2, h3, h4]⟩
          · refine ⟨some ⟨textOf pn, textOf pElem, textOf st, url,
              some (get_path_hierarchy url)⟩, ?_⟩
            unfold crawl_page
            simp [hok, h1, h2, h3, h4]

theorem crawl_pages_cons_none (env : String → FetchResult) (u : String)
    (us : List String) (h : crawl_page (env u) u "product" = .ok none) :
    crawl_pages env (u :: us) = crawl_pages env us := by
  conv_lhs => rw [crawl_pages.eq_def]
  dsimp only
  rw [h]

theorem skipped_count_cons_none (env : String → FetchResult) (u : String)
    (us : List String) (h : crawl_page (env u) u "product" = .ok none) :
    skipped_count env (u :: us) = skipped_count env us + 1 := by
  conv_lhs => rw [skipped_count.eq_def]
  dsimp only
  rw [h]
  dsimp only
  omega

/-- C2, counterexample.  The claim says a fetch failure inside `crawl_page`
never escapes as an exception; but `requests.get` is called outside the
`try` block, so a connection error raised there propagates out of
`crawl_page`, through `pool.imap`, and aborts the whole run. -/
theorem c2_network_exception_escapes :
    crawl_page (.exn "ConnectionError") "https://x/product/a" "product"
      = .error "ConnectionError"
    ∧ crawl_pages (fun _ => .exn "ConnectionError") ["https://x/product/a"]
      = .error "ConnectionError" := by
  constructor
  · decide
  · decide

/-- C2, amended.  Per-URL errors arising after the fetch returned a
response never escape `crawl_page`: an HTTP error status yields the `None`
outcome, any selector failure inside the `try` yields the `None` outcome,
every response produces some `Except.ok` outcome, and the orchestrator
drops a `None` outcome and continues with the remaining URLs.  But an
exception raised by the fetch itself (network error, DNS failure, timeout)
escapes `crawl_page` unhandled and terminates the run. -/
theorem c2_error_capture :
    (∀ status body url cs, 400 ≤ status → status < 600 →
        crawl_page (.resp status body) url cs = .ok none)
    ∧ (∀ status body url cs,
        ∃ o, crawl_page (.resp status body) url cs = .ok o)
    ∧ (∀ (env : String → FetchResult) u us,
        crawl_page (env u) u "product" = .ok none →
        crawl_pages env (u :: us) = crawl_pages env us)
    ∧ (∀ msg url cs, crawl_page (.exn msg) url cs = .error msg) :=
  ⟨fun status body url cs h4 h6 => crawl_page_status_not_ok status body url cs h4 h6,
   fun status body url cs => crawl_page_resp_no_exn status body url cs,
   fun env u us h => crawl_pages_cons_none env u us h,
   fun _ _ _ => rfl⟩

/-- C2, witness: a 404 response is captured as a `None` outcome and the
orchestrator continues past it. -/
theorem c2_witness :
    crawl_page (.resp 404 goodBody) "https://x/product/a" "product" = .ok none
    ∧ crawl_pages (fun _ => .resp 404 goodBody)
        ("https://x/product/a" :: ["https://x/product/b"])
      = crawl_pages (fun _ => .resp 404 goodBody) ["https://x/product/b"] :=
  ⟨c2_error_capture.1 404 goodBody "https://x/product/a" "product"
     (by decide) (by decide),
   c2_error_capture.2.2.1 (fun _ => .resp 404 goodBody) "https://x/product/a"
     ["https://x/product/b"] (by decide)⟩

/-- C5, counterexample.  The claim covers every non-2xx status, but the
code tests `resp.ok`, which in `requests` is `status < 400`: a 304
response (non-2xx) is treated as success, its body is parsed, a record is
produced and written, and the skip count stays 0. -/
theorem c5_304_counterexample :
    crawl_page (.resp 304 goodBody) "https://x/product/a" "product"
      = .ok (some goodRecord)
    ∧ crawl_pages (fun _ => .resp 304 goodBody) ["https://x/product/a"]
      = .ok [goodRecord]
    ∧ skipped_count (fun _ => .resp 304 goodBody) ["https://x/product/a"] = 0 := by
  refine ⟨?_, ?_, ?_⟩ <;> decide

/-- C5, amended.  For every dispatched URL whose fetch returns a status the
code considers not ok — `400 ≤ status < 600`, which includes 404 but not
other non-2xx statuses such as 304 — `crawl_page` produces the `None`
(skip) outcome, the run's records are exactly those of the remaining URLs
(zero records for this one), and the skipped tally increments by 1. -/
theorem c5_http_error_skips (env : String → FetchResult) (us : List String)
    (u : String) (status : Nat) (body : Node)
    (henv : env u = .resp status body) (h4 : 400 ≤ status) (h6 : status < 600) :
    crawl_page (env u) u "product" = .ok none
    ∧ crawl_pages env (u :: us) = crawl_pages env us
    ∧ skipped_count env (u :: us) = skipped_count env us + 1 := by
  have hc : crawl_page (env u) u "product" = .ok none := by
    rw [henv]
    exact crawl_page_status_not_ok status body u "product" h4 h6
  exact ⟨hc, crawl_pages_cons_none env u us hc, skipped_count_cons_none env u us hc⟩

/-- C5, witness: a 404 at a dispatched URL is skipped, contributes no
record, and bumps the skip count by one. -/
theorem c5_witness :
    crawl_page ((fun _ => FetchResult.resp 404 goodBody) "https://x/product/a")
        "https://x/product/a" "product" = .ok none
    ∧ crawl_pages (fun _ => FetchResult.resp 404 goodBody)
        ("https://x/product/a" :: [])
      = crawl_pages (fun _ => FetchResult.resp 404 goodBody) []
    ∧ skipped_count (fun _ => FetchResult.resp 404 goodBody)
        ("https://x/product/a" :: [])
      = skipped_count (fun _ => FetchResult.resp 404 goodBody) [] + 1 :=
  c5_http_error_skips (fun _ => FetchResult.resp 404 goodBody) []
    "https://x/product/a" 404 goodBody rfl (by decide) (by decide)

/-- C1, counterexample.  The claim requires failure when a matched field
has no usable text; but the code never inspects text content, only whether
the selector lookups succeed.  On a page whose `h1.product-name` element
matches but contains no text at all, `crawl_page` still returns a full
record, with an empty `title`. -/
theorem c1_empty_text_counterexample :
    crawl_page (.resp 200 emptyTitleBody) "https://x/product/a" "product"
      = .ok (some { title := "", description := "D", subtitle := "S",
                    url := "https://x/product/a",
                    sections := some ["product", "product/a"] }) := by
  decide

/-- C1, amended.  A record is returned exactly when every selector lookup
succeeds: the `h1.product-name` find, the `h2.product-description-header`
find (whose parent must contain a `p`), and the `div.product-subtitle`
find.  If any lookup yields no match the whole call returns no record and
no partial record is produced; but the text of a matched element is not
validated, so a match with empty text still yields a record. -/
theorem c1_record_requires_matches :
    (∀ status body url cs, resp_ok status = true →
      (findInNode (matchesTagClass "h1" "product-name") body = none
        ∨ findParentInNode (matchesTagClass "h2" "product-description-header") body = none
        ∨ findInNode (matchesTagClass "div" "product-subtitle") body = none
        ∨ (∃ desc,
            findParentInNode (matchesTagClass "h2" "product-description-header") body
              = some desc
            ∧ findInNode (matchesTag "p") desc = none)) →
      crawl_page (.resp status body) url cs = .ok none)
    ∧ (∀ status body url cs product_name desc subtitle pElem,
        resp_ok status = true →
        findInNode (matchesTagClass "h1" "product-name") body = some product_name →
        findParentInNode (matchesTagClass "h2" "product-description-header") body
          = some desc →
        findInNode (matchesTagClass "div" "product-subtitle") body = some subtitle →
        findInNode (matchesTag "p") desc = some pElem →
        crawl_page (.resp status body) url cs
          = .ok (some { title := textOf product_name, description := textOf pElem,
                        subtitle := textOf subtitle, url := url,
                        sections := some (get_path_hierarchy url) })) := by
  constructor
  · intro status body url cs hok hfail
    have hok' : ¬ (resp_ok status = false) := by simp [hok]
    rcases hfail with h1 | h2 | h3 | ⟨desc, h2, h4⟩
    · rcases hb : findParentInNode
          (matchesTagClass "h2" "product-description-header") body with _ | d <;>
      rcases hc : findInNode (matchesTagClass "div" "product-subtitle") body
          with _ | st <;>
      · unfold crawl_page
        simp [hok', h1, hb, hc]
    · rcases ha : findInNode (matchesTagClass "h1" "product-name") body with _ | pn <;>
      rcases hc : findInNode (matchesTagClass "div" "product-subtitle") body
          with _ | st <;>
      · unfold crawl_page
        simp [hok', ha, h2, hc]
    · rcases ha : findInNode (matchesTagClass "h1" "product-name") body with _ | pn <;>
      rcases hb : findParentInNode
          (matchesTagClass "h2" "product-description-header") body with _ | d <;>
      · unfold crawl_page
        simp [hok', ha, hb, h3]
    · rcases ha : findInNode (matchesTagClass "h1" "product-name") body with _ | pn <;>
      rcases hc : findInNode (matchesTagClass "div" "product-subtitle") body
          with _ | st <;>
      · unfold crawl_page
        simp [hok', ha, h2, hc, h4]
  · intro status body url cs product_name desc subtitle pElem hok h1 h2 h3 h4
    have hok' : ¬ (resp_ok status = false) := by simp [hok]
    unfold crawl_page
    simp [hok', h1, h2, h3, h4]

/-- C1, witness: on a page where all lookups succeed the record with the
three extracted texts is returned. -/
theorem c1_witness :
    crawl_page (.resp 200 goodBody) "https://x/product/a" "product"
      = .ok (some { title := "T", description := "D", subtitle := "S",
                    url := "https://x/product/a",
                    sections := some (get_path_hierarchy "https://x/product/a") }) :=
  c1_record_requires_matches.2 200 goodBody "https://x/product/a" "product"
    (.elem "h1" ["product-name"] [.text "T"])
    (.elem "section" [] [
      .elem "h2" ["product-description-header"] [.text "hdr"],
      .elem "p" [] [.text "D"]])
    (.elem "div" ["product-subtitle"] [.text "S"])
    (.elem "p" [] [.text "D"])
    (by decide) rfl rfl rfl rfl

/-! ## C7: provenance of written records -/

theorem crawl_page_some_fields (fetched : FetchResult) (u cs : String)
    (r : ProductData) (h : crawl_page fetched u cs = .ok (some r)) :
    r.url = u ∧ r.sections = some (get_path_hierarchy u) := by
  unfold crawl_page at h
  dsimp only at h
  split at h
  · exact absurd h (by simp)
  · split at h
    · exact absurd h (by simp)
    · split at h
      · split at h
        · injection h with h'
          injection h' with h''
          subst h''
          exact ⟨rfl, rfl⟩
        · exact absurd h (by simp)
      · exact absurd h (by simp)

theorem crawl_pages_mem (env : String → FetchResult) (us : List String)
    (rs : List ProductData) (h : crawl_pages env us = .ok rs)
    (r : ProductData) (hr : r ∈ rs) :
    r.url ∈ us ∧ r.sections = some (get_path_hierarchy r.url) := by
  induction us generalizing rs with
  | nil =>
    unfold crawl_pages at h
    cases h
    simp at hr
  | cons u us ih =>
    conv_lhs at h => rw [crawl_pages.eq_def]
    dsimp only at h
    cases hc : crawl_page (env u) u "product" with
    | error e => rw [hc] at h; simp at h
    | ok o =>
      rw [hc] at h
      cases o with
      | none =>
        dsimp only at h
        have := ih rs h hr
        exact ⟨List.mem_cons_of_mem u this.1, this.2⟩
      | some r0 =>
        dsimp only at h
        cases hrec : crawl_pages env us with
        | error e => rw [hrec] at h; simp [Except.map] at h
        | ok rs0 =>
          rw [hrec] at h
          simp [Except.map] at h
          subst h
          rcases List.mem_cons.mp hr with h' | h'
          · subst h'
            have hf := crawl_page_some_fields (env u) u "product" r hc
            exact ⟨by rw [hf.1]; exact List.mem_cons_self u us, by rw [hf.1]; exact hf.2⟩
          · have := ih rs0 hrec h'
            exact ⟨List.mem_cons_of_mem u this.1, this.2⟩

/-- C7.  Every record produced by the crawl over the filtered URL list has
a `url` that is a member of the filtered URL set (and hence satisfied the
filter predicate), and its `sections` field is exactly the URL Path
Decomposer's output for that `url`. -/
theorem c7_record_provenance (env : String → FetchResult) (pages : List String)
    (rs : List ProductData)
    (h : crawl_pages env (filtered_page_urls pages) = .ok rs) :
    ∀ r ∈ rs, r.url ∈ filtered_page_urls pages
      ∧ url_filter_pred r.url = true
      ∧ r.sections = some (get_path_hierarchy r.url) := by
  intro r hr
  have hm := crawl_pages_mem env (filtered_page_urls pages) rs h r hr
  refine ⟨hm.1, ?_, hm.2⟩
  exact List.of_mem_filter hm.1

/-- C7, witness: a crawl over one filtered product URL succeeds and yields
a record whose url and sections satisfy the invariant. -/
theorem c7_witness :
    goodRecord.url ∈ filtered_page_urls ["https://x/product/a"]
    ∧ url_filter_pred goodRecord.url = true
    ∧ goodRecord.sections = some (get_path_hierarchy goodRecord.url) :=
  c7_record_provenance (fun _ => .resp 200 goodBody) ["https://x/product/a"]
    [goodRecord] (by decide) goodRecord (by simp)

/-! ## Sink lemmas: each serialized record is newline-free, so the file is
exactly one JSON object per line -/

theorem newline_not_mem_u4 (n : Nat) : '\n' ∉ u4 n := by
  have hd : ∀ m, m < 16 → hexDigit m ≠ '\n' := by decide
  intro hmem
  simp only [u4, List.mem_cons, List.not_mem_nil, or_false] at hmem
  rcases hmem with h | h | h | h | h | h
  · exact absurd h (by decide)
  · exact absurd h (by decide)
  · exact hd _ (Nat.mod_lt _ (by norm_num)) h.symm
  · exact hd _ (Nat.mod_lt _ (by norm_num)) h.symm
  · exact hd _ (Nat.mod_lt _ (by norm_num)) h.symm
  · exact hd _ (Nat.mod_lt _ (by norm_num)) h.symm

theorem newline_not_mem_escChar (c : Char) : '\n' ∉ escChar c := by
  intro hmem
  unfold escChar at hmem
  split at hmem
  · exact absurd hmem (by decide)
  · split at hmem
    · exact absurd hmem (by decide)
    · split at hmem
      · exact absurd hmem (by decide)
      · split at hmem
        · exact absurd hmem (by decide)
        · split at hmem
          · exact absurd hmem (by decide)
          · split at hmem
            · exact absurd hmem (by decide)
            · split at hmem
              · exact absurd hmem (by decide)
              · split at hmem
                · exact newline_not_mem_u4 _ hmem
                · split at hmem
                  · exact absurd (List.mem_singleton.mp hmem).symm (by assumption)
                  · split at hmem
                    · exact newline_not_mem_u4 _ hmem
                    · rcases List.mem_append.mp hmem with h | h
                      · exact newline_not_mem_u4 _ h
                      · exact newline_not_mem_u4 _ h

theorem newline_not_mem_escList (s : String) : '\n' ∉ escList s := by
  have hfold : ∀ l : List Char,
      '\n' ∉ l.foldr (fun c acc => escChar c ++ acc) ['"'] := by
    intro l
    induction l with
    | nil => decide
    | cons c cs ih =>
      intro hmem
      rcases List.mem_append.mp hmem with h | h
      · exact newline_not_mem_escChar c h
      · exact ih h
  intro hmem
  rcases List.mem_cons.mp hmem with h | h
  · exact absurd h (by decide)
  · exact hfold s.data h

theorem newline_not_mem_joinCommaL (items : List (List Char))
    (h : ∀ x ∈ items, '\n' ∉ x) : '\n' ∉ joinCommaL items := by
  induction items with
  | nil => simp [joinCommaL]
  | cons x xs ih =>
    cases xs with
    | nil => simpa [joinCommaL] using h x (by simp)
    | cons y ys =>
      unfold joinCommaL
      intro hmem
      rcases List.mem_append.mp hmem with h1 | h2
      · exact h x (by simp) h1
      · rcases List.mem_append.mp h2 with h3 | h4
        · exact absurd h3 (by decide)
        · exact ih (fun z hz => h z (List.mem_cons_of_mem x hz)) h4

theorem newline_not_mem_renderJValL (v : JVal) : '\n' ∉ renderJValL v := by
  cases v with
  | str s => exact newline_not_mem_escList s
  | jnull => decide
  | arr xs =>
    unfold renderJValL
    intro hmem
    rcases List.mem_cons.mp hmem with h | h
    · exact absurd h (by decide)
    · rcases List.mem_append.mp h with h1 | h2
      · refine newline_not_mem_joinCommaL _ ?_ h1
        intro x hx
        rcases List.mem_map.mp hx with ⟨s, _, rfl⟩
        exact newline_not_mem_escList s
      · exact absurd h2 (by decide)

theorem newline_not_mem_write_record (r : ProductData) :
    '\n' ∉ write_record r := by
  unfold write_record dumpsChars
  intro hmem
  rcases List.mem_cons.mp hmem with h | h
  · exact absurd h (by decide)
  · rcases List.mem_append.mp h with h1 | h2
    · refine newline_not_mem_joinCommaL _ ?_ h1
      intro x hx
      rcases List.mem_map.mp hx with ⟨⟨k, v⟩, _, rfl⟩
      intro hm
      rcases List.mem_append.mp hm with ha | hb
      · exact newline_not_mem_escList k ha
      · rcases List.mem_cons.mp hb with hc | hc
        · exact absurd hc (by decide)
        · rcases List.mem_cons.mp hc with he | he
          · exact absurd he (by decide)
          · exact newline_not_mem_renderJValL v he
    · exact absurd h2 (by decide)

theorem write_records_lines (rs : List ProductData) :
    write_records rs = (rs.map fun r => write_record r ++ ['\n']).flatten := by
  induction rs with
  | nil => rfl
  | cons r rs ih =>
    unfold write_records
    rw [ih]
    simp [List.append_assoc]

theorem splitChar_append (c : Char) (a b : List Char) (h : c ∉ a) :
    splitChar c (a ++ c :: b) = a :: splitChar c b := by
  induction a with
  | nil => simp [splitChar]
  | cons x a ih =>
    have hx : ¬ (x == c) = true := by
      simp only [beq_iff_eq]
      intro e
      exact h (e ▸ List.mem_cons_self x a)
    have ha : c ∉ a := fun hm => h (List.mem_cons_of_mem x hm)
    simp only [List.cons_append, splitChar, hx, if_false, Bool.false_eq_true]
    have happ : a.append (c :: b) = a ++ c :: b := rfl
    rw [happ, ih ha]

theorem splitChar_write_records (rs : List ProductData) :
    splitChar '\n' (write_records rs) = (rs.map write_record) ++ [[]] := by
  induction rs with
  | nil => rfl
  | cons r rs ih =>
    unfold write_records
    rw [splitChar_append '\n' (write_record r) (write_records rs)
      (newline_not_mem_write_record r), ih]
    simp

theorem write_record_spec_shape (r : ProductData) (l : List String)
    (h : r.sections = some l) : write_record r = record_line_spec r l := by
  obtain ⟨t, d, st, u, sec⟩ := r
  simp only at h
  subst h
  have e0 : ((", ".data : List Char)) = [',', ' '] := by decide
  have k1 : escList "title" = ['"', 't', 'i', 't', 'l', 'e', '"'] := by decide
  have k2 : escList "description"
      = ['"', 'd', 'e', 's', 'c', 'r', 'i', 'p', 't', 'i', 'o', 'n', '"'] := by decide
  have k3 : escList "subtitle"
      = ['"', 's', 'u', 'b', 't', 'i', 't', 'l', 'e', '"'] := by decide
  have k4 : escList "url" = ['"', 'u', 'r', 'l', '"'] := by decide
  have k5 : escList "sections"
      = ['"', 's', 'e', 'c', 't', 'i', 'o', 'n', 's', '"'] := by decide
  have e1 : (("\x7b\"title\": ".data : List Char))
      = ['\x7b', '"', 't', 'i', 't', 'l', 'e', '"', ':', ' '] := by decide
  have e2 : ((", \"description\": ".data : List Char))
      = [',', ' ', '"', 'd', 'e', 's', 'c', 'r', 'i', 'p', 't', 'i', 'o', 'n', '"',
         ':', ' '] := by decide
  have e3 : ((", \"subtitle\": ".data : List Char))
      = [',', ' ', '"', 's', 'u', 'b', 't', 'i', 't', 'l', 'e', '"', ':', ' '] := by decide
  have e4 : ((", \"url\": ".data : List Char))
      = [',', ' ', '"', 'u', 'r', 'l', '"', ':', ' '] := by decide
  have e5 : ((", \"sections\": [".data : List Char))
      = [',', ' ', '"', 's', 'e', 'c', 't', 'i', 'o', 'n', 's', '"', ':', ' ', '['] := by decide
  have e6 : (("]\x7d".data : List Char)) = [']', '\x7d'] := by decide
  simp only [write_record, dumpsChars, recordDict, record_line_spec, List.map_cons,
    List.map_nil, joinCommaL, renderJValL, e0, k1, k2, k3, k4, k5, e1, e2, e3, e4,
    e5, e6, List.cons_append, List.nil_append, List.append_assoc]

/-- C3.  The sink write produces, for a list of successful records, exactly
one JSON object per record, each newline-terminated (the serialized object
itself contains no newline, so each object occupies exactly one line), with
no enclosing array (every line starts with the object brace, and the file
is a flat concatenation of lines, not a bracketed list); the serialized
keys are exactly `title`, `description`, `subtitle`, `url`, `sections` in
that order, and each line is byte-for-byte the spec's
`\x7b"title": ..., "description": ..., "subtitle": ..., "url": ...,
"sections": [...]\x7d` template. -/
theorem c3_sink_line_format :
    (∀ rs : List ProductData,
        write_records rs = (rs.map fun r => write_record r ++ ['\n']).flatten)
    ∧ (∀ r : ProductData,
        '\n' ∉ write_record r
        ∧ (write_record r).head? = some '\x7b'
        ∧ (recordDict r).map Prod.fst
            = ["title", "description", "subtitle", "url", "sections"])
    ∧ (∀ (r : ProductData) (l : List String), r.sections = some l →
        write_record r = record_line_spec r l) :=
  ⟨write_records_lines,
   fun r => ⟨newline_not_mem_write_record r, rfl, rfl⟩,
   write_record_spec_shape⟩

/-- C3, witness: the record extracted from the sample product page
serializes to the spec's template. -/
theorem c3_witness :
    write_record goodRecord = record_line_spec goodRecord ["product", "product/a"] :=
  c3_sink_line_format.2.2 goodRecord ["product", "product/a"] rfl

/-- C8, counterexample.  The claim says a second run preserves the first
run's lines (append-only sink).  But `download_and_save` opens the sink
with mode `'w'` (line 139), which truncates: after a second identical run
the file does not hold the first run's lines followed by the second's. -/
theorem c8_truncation_counterexample :
    file_after_run (write_records [goodRecord]) [goodRecord]
      ≠ write_records [goodRecord] ++ write_records [goodRecord] := by
  decide

/-- C8, amended.  The sink open is truncating, not append-only: a run's
file contents are exactly its own records' lines regardless of the
previous contents, so running the Orchestrator twice against an unchanged
site yields the same file as one run (the first run's lines are replaced,
not preserved, and no duplicates arise); the resulting file is still
uncorrupted — splitting it on newlines yields exactly one serialized
record per line, each carrying all required keys. -/
theorem c8_rerun_replaces (prev : List Char) (rs : List ProductData) :
    file_after_run prev rs = write_records rs
    ∧ file_after_run (file_after_run prev rs) rs = file_after_run prev rs
    ∧ splitChar '\n' (file_after_run prev rs) = (rs.map write_record) ++ [[]]
    ∧ ∀ r ∈ rs, (recordDict r).map Prod.fst
        = ["title", "description", "subtitle", "url", "sections"] :=
  ⟨rfl, rfl, splitChar_write_records rs, fun _ _ => rfl⟩

/-- C8, witness: rerunning over the sample record replaces the previous
contents with the same single valid line. -/
theorem c8_witness :
    splitChar '\n' (file_after_run (write_records [goodRecord]) [goodRecord])
      = ([goodRecord].map write_record) ++ [[]]
    ∧ (recordDict goodRecord).map Prod.fst
      = ["title", "description", "subtitle", "url", "sections"] :=
  ⟨(c8_rerun_replaces (write_records [goodRecord]) [goodRecord]).2.2.1,
   (c8_rerun_replaces (write_records [goodRecord]) [goodRecord]).2.2.2
     goodRecord (by simp)⟩
